import Mathlib

/-!
Verification of the tedit text-buffer/pane engine.

Shallow embedding of the Rust sources under `src/src/editor/`:
Rust `String` values are modelled as `List Char`; Rust byte indices into a
string are modelled through the UTF-8 byte size of each scalar value
(`Char.utf8Size`), so that operations such as `String::insert`,
`String::remove` and `str::split_at`, which work on byte indices and panic
off a character boundary, are represented faithfully.  A Rust operation
that can panic is embedded as an `Option`-valued function, `none` meaning
the panic.  Machine integers (`usize`, `u8`) are modelled as `Nat`; the
sources only use `saturating_add` / `saturating_sub` / `%`, which map to
`Nat` addition, truncated subtraction and `%` (with the `% 0` panic of
Rust made explicit where it can occur).
-/

namespace Tedit

/-! ### Rust string primitives (byte-indexed, UTF-8) -/

/-- The UTF-8 byte length of a string, i.e. Rust's `String::len`. -/
def utf8Len (cs : List Char) : Nat :=
  (cs.map Char.utf8Size).sum

/-- Rust's `String::insert(idx, ch)`: insert a character at a byte index.
`none` models the panic when `idx` is beyond the end of the string or not
on a character boundary. -/
def insertAtByte : List Char → Nat → Char → Option (List Char)
  | cs, 0, c => some (c :: cs)
  | [], _ + 1, _ => none
  | c' :: cs, i + 1, c =>
    if i + 1 < c'.utf8Size then none
    else (insertAtByte cs (i + 1 - c'.utf8Size) c).map (c' :: ·)

/-- Rust's `String::remove(idx)`: remove the character starting at a byte
index.  `none` models the panic when `idx` is at or beyond the end of the
string or not on a character boundary. -/
def removeAtByte : List Char → Nat → Option (List Char)
  | [], _ => none
  | _ :: cs, 0 => some cs
  | c' :: cs, i + 1 =>
    if i + 1 < c'.utf8Size then none
    else (removeAtByte cs (i + 1 - c'.utf8Size)).map (c' :: ·)

/-- Rust's `str::split_at(mid)` on a byte index.  `none` models the panic
when `mid` is past the end of the string or not on a character boundary. -/
def splitAtByte : List Char → Nat → Option (List Char × List Char)
  | cs, 0 => some ([], cs)
  | [], _ + 1 => none
  | c' :: cs, i + 1 =>
    if i + 1 < c'.utf8Size then none
    else (splitAtByte cs (i + 1 - c'.utf8Size)).map (fun p => (c' :: p.1, p.2))

/-! ### Row (`src/src/editor/buffer/row.rs`) -/

/-- Embeds `Row`: the text of one line together with the stored `len` field. -/
structure Row where
  text : List Char
  len : Nat
deriving Repr, DecidableEq

/-- Embeds `Row::new`: `let len = text.len()` — the *byte* length of the text. -/
def Row.new (s : List Char) : Row :=
  { text := s, len := utf8Len s }

/-- Embeds `Row::default()`: an empty row. -/
def Row.mkDefault : Row :=
  Row.new []

/-- Embeds `Row::append_char`. -/
def Row.append_char (r : Row) (c : Char) : Row :=
  { text := r.text ++ [c], len := r.len + 1 }

/-- Embeds `Row::insert_char(index, c) -> bool`; the inner `String::insert` call
can panic (`none`). -/
def Row.insert_char (r : Row) (index : Nat) (c : Char) : Option (Row × Bool) :=
  if index > r.len then some (r, false)
  else if index = r.len then some (r.append_char c, true)
  else (insertAtByte r.text index c).map (fun t => ({ text := t, len := r.len + 1 }, true))

/-- Embeds `Row::delete_char(index) -> bool`; the inner `String::remove` call can
panic (`none`). -/
def Row.delete_char (r : Row) (index : Nat) : Option (Row × Bool) :=
  if index ≥ r.len then some (r, false)
  else (removeAtByte r.text index).map (fun t => ({ text := t, len := r.len - 1 }, true))

/-- Embeds `Row::split_at(index)`: split into two fresh rows (`Row::new` on each
half); the inner `str::split_at` can panic (`none`). -/
def Row.split_at (r : Row) (index : Nat) : Option (Row × Row) :=
  (splitAtByte r.text index).map (fun p => (Row.new p.1, Row.new p.2))

/-- Embeds `Row::append_row`. -/
def Row.append_row (r other : Row) : Row :=
  { text := r.text ++ other.text, len := r.len + other.len }

/-! ### Points, cursors and buffer actions
(`src/src/editor/geometry/point.rs`, `src/src/editor/pane/cursor.rs`,
`src/src/editor/buffer/modification.rs`) -/

/-- Embeds `Point`: a column/row coordinate pair. -/
structure Point where
  col : Nat
  row : Nat
deriving Repr, DecidableEq

/-- Embeds `Cursor`: column, row and the sticky column `last_col`. -/
structure Cursor where
  col : Nat
  row : Nat
  last_col : Nat
deriving Repr, DecidableEq

/-- Embeds `Cursor::position`. -/
def Cursor.position (c : Cursor) : Nat × Nat :=
  (c.col, c.row)

/-- Embeds `ActionRange`: the range of text affected by a buffer action. -/
inductive ActionRange where
  | Line (row : Nat)
  | PointToPoint (fromP toP : Point)
deriving Repr, DecidableEq

/-- Embeds `BufferAction`: the canonical description of a buffer edit. -/
inductive BufferAction where
  | Insert (start : Point) (text : List Char)
  | Delete (range : ActionRange)
  | AppendLineToLine (fromIdx toIdx : Nat)
  | None
deriving Repr, DecidableEq

/-- Embeds `BufferAction::is_insert_newline`. -/
def BufferAction.is_insert_newline : BufferAction → Bool
  | BufferAction.Insert _ text => text = ['\n']
  | _ => false

/-! ### Buffer (`src/src/editor/buffer.rs`) -/

/-- Embeds `Buffer`: the rows, the optional file path and the dirty flag. -/
structure Buffer where
  rows : List Row
  filepath : Option (List Char)
  dirty : Bool
deriving Repr, DecidableEq

/-- Embeds `Buffer::row(row)`: `self.rows.get(row)`. -/
def Buffer.row (b : Buffer) (i : Nat) : Option Row :=
  b.rows.get? i

/-- Embeds `Buffer::num_lines`. -/
def Buffer.num_lines (b : Buffer) : Nat :=
  b.rows.length

/-- Embeds `Buffer::open_new(path)`. -/
def Buffer.open_new (path : List Char) : Buffer :=
  { rows := [Row.mkDefault], filepath := some path, dirty := false }

/-- Embeds `Buffer::open_file(path)` applied to the contents read from disk:
`contents.split("\n").map(Row::new).collect()`. -/
def Buffer.open_file (path contents : List Char) : Buffer :=
  { rows := (contents.splitOn '\n').map Row.new, filepath := some path, dirty := false }

/-- Embeds `Buffer::default()`. -/
def Buffer.mkDefault : Buffer :=
  { rows := [Row.mkDefault], filepath := none, dirty := false }

/-- Embeds `Buffer::insert_char(c, cursor)`; `none` models a panic inside the row
operation. -/
def Buffer.insert_char (b : Buffer) (c : Char) (cursor : Cursor) :
    Option (Buffer × BufferAction) :=
  match b.rows.get? cursor.row with
  | none => some (b, BufferAction.None)
  | some row =>
    match Row.insert_char row cursor.col c with
    | none => none
    | some (row', inserted) =>
      if inserted then
        some ({ b with rows := b.rows.set cursor.row row', dirty := true },
          BufferAction.Insert { col := cursor.col, row := cursor.row } [c])
      else some ({ b with rows := b.rows.set cursor.row row' }, BufferAction.None)

/-- Embeds `Buffer::insert_newline(cursor)`; `none` models a panic inside
`Row::split_at`. -/
def Buffer.insert_newline (b : Buffer) (cursor : Cursor) :
    Option (Buffer × BufferAction) :=
  match b.rows.get? cursor.row with
  | none => some (b, BufferAction.None)
  | some row =>
    match Row.split_at row cursor.col with
    | none => none
    | some (left, right) =>
      some ({ b with
          rows := (b.rows.set cursor.row left).insertIdx (cursor.row + 1) right,
          dirty := true },
        BufferAction.Insert { col := cursor.col, row := cursor.row } ['\n'])

/-- Embeds `Buffer::append_line_to_line(from, to)`: `self.rows.remove(from)`
followed by `self.rows.get_mut(to)` on the *already shortened* row list.
`none` models the `Vec::remove` panic when `from` is out of bounds. -/
def Buffer.append_line_to_line (b : Buffer) (fromIdx toIdx : Nat) :
    Option (Buffer × BufferAction) :=
  match b.rows.get? fromIdx with
  | none => none
  | some right_row =>
    let rows' := b.rows.eraseIdx fromIdx
    match rows'.get? toIdx with
    | none => some ({ b with rows := rows' }, BufferAction.None)
    | some row =>
      some ({ b with rows := rows'.set toIdx (Row.append_row row right_row), dirty := true },
        BufferAction.Delete (ActionRange.Line fromIdx))

/-- Embeds `Buffer::delete_char(cursor)`; `none` models a panic inside a row
operation. -/
def Buffer.delete_char (b : Buffer) (cursor : Cursor) :
    Option (Buffer × BufferAction) :=
  let current_row_len := ((b.rows.get? cursor.row).map Row.len).getD 0
  if current_row_len = 0 then some (b, BufferAction.None)
  else if cursor.col = current_row_len then
    b.append_line_to_line cursor.row (cursor.row + 1)
  else
    match b.rows.get? cursor.row with
    | none => some (b, BufferAction.None)
    | some row =>
      match Row.delete_char row cursor.col with
      | none => none
      | some (row', deleted) =>
        if deleted then
          some ({ b with rows := b.rows.set cursor.row row', dirty := true },
            BufferAction.Delete (ActionRange.PointToPoint
              { col := cursor.col, row := cursor.row }
              { col := cursor.col, row := cursor.row }))
        else some ({ b with rows := b.rows.set cursor.row row' }, BufferAction.None)

/-! ### Cursor movement (`src/src/editor/pane/cursor.rs`) -/

/-- Embeds `Cursor::move_up`: decrement the row (saturating), then clamp or
restore the column from `last_col` against the destination row. -/
def Cursor.move_up (c : Cursor) (b : Buffer) : Cursor :=
  let row' := c.row - 1
  match b.row row' with
  | none => { c with row := row' }
  | some r =>
    if c.col > r.len then { c with row := row', col := r.len }
    else if c.col < c.last_col then { c with row := row', col := min c.last_col r.len }
    else { c with row := row' }

/-- Embeds `Cursor::move_down`: advance to the next row when it exists, then clamp
or restore the column from `last_col` against the destination row. -/
def Cursor.move_down (c : Cursor) (b : Buffer) : Cursor :=
  match b.row (c.row + 1) with
  | none => c
  | some r =>
    if c.col > r.len then { c with row := c.row + 1, col := r.len }
    else if c.col < c.last_col then
      { c with row := c.row + 1, col := min c.last_col r.len }
    else { c with row := c.row + 1 }

/-- A vertical cursor movement: `move_up` or `move_down`. -/
inductive VMove where
  | up
  | down
deriving Repr, DecidableEq

/-- Apply a sequence of vertical movements to a cursor against a buffer. -/
def applyMoves (b : Buffer) : List VMove → Cursor → Cursor
  | [], c => c
  | VMove.up :: ms, c => applyMoves b ms (c.move_up b)
  | VMove.down :: ms, c => applyMoves b ms (c.move_down b)

/-! ### Style (`src/src/editor/ui/style.rs`) -/

/-- Embeds `Color`. -/
inductive Color where
  | Reset
  | Black
  | DarkGrey
  | Red
  | DarkRed
  | Green
  | DarkGreen
  | Yellow
  | DarkYellow
  | Blue
  | DarkBlue
  | Magenta
  | DarkMagenta
  | Cyan
  | DarkCyan
  | White
  | Grey
  | Rgb (r g b : Nat)
  | AnsiValue (v : Nat)
deriving Repr, DecidableEq

/-- Embeds `FontIntensity`. -/
inductive FontIntensity where
  | Normal
  | Bold
  | Dim
deriving Repr, DecidableEq

/-- Embeds `Style`: four independently optional fields. -/
structure Style where
  fg : Option Color := none
  bg : Option Color := none
  intensity : Option FontIntensity := none
  underline : Option Bool := none
deriving Repr, DecidableEq

/-- Embeds `Style::force_apply(other)`, field for field as written in the source;
note that the `fg` assignment reads `self.bg`. -/
def Style.force_apply (s other : Style) : Style :=
  { fg := other.fg.or s.bg,
    bg := other.bg.or s.bg,
    intensity := other.intensity.or s.intensity,
    underline := other.underline.or s.underline }

/-! ### Pane and PaneManager (`src/src/editor/pane.rs`,
`src/src/editor/pane/manager.rs`)

Only the pane state that the claims touch is carried: the buffer id of the
pane's `BufferEntry` and the pane's cursor.  The gutter and the scroll
viewport of a pane, and the `rect`/`layout` fields of the manager, are
rendering-only state with no bearing on pane switching or anchoring. -/

/-- A pane: the buffer id of its `BufferEntry` and its private cursor. -/
structure Pane where
  buffer_id : Nat
  cursor : Cursor
deriving Repr, DecidableEq

/-- Embeds `PaneManager`: the pane list and the active index. -/
structure PaneManager where
  panes : List Pane
  active_pane : Nat
deriving Repr, DecidableEq

/-- Embeds `PaneManager::next_pane`:
`self.active_pane.saturating_add(1) % self.panes.len()`.  `none` models the
division-by-zero panic of `%` when the pane list is empty. -/
def PaneManager.next_pane (pm : PaneManager) : Option PaneManager :=
  if pm.panes.length = 0 then none
  else some { pm with active_pane := (pm.active_pane + 1) % pm.panes.length }

/-- Embeds `PaneManager::prev_pane`: step back, wrapping from 0 to
`len().saturating_sub(1)`. -/
def PaneManager.prev_pane (pm : PaneManager) : PaneManager :=
  { pm with
    active_pane :=
      if pm.active_pane = 0 then pm.panes.length - 1 else pm.active_pane - 1 }

/-! ### The anchoring pass -/

/-- Modelled from the spec: the cross-pane anchoring adjustment of one
cursor.  The anchoring pass itself is not present under `src/` (the spec
describes it as part of `PaneManager`, but no source function implements
it); this follows the spec's words: an inserted newline at row `R`
(`BufferAction::is_insert_newline`, insertion point `start`) increments the
cursor row if it was `> R`; a full-line removal `Delete(Line(R))`
decrements it if it was `>= R`; every other action leaves it unchanged. -/
def anchorCursor (action : BufferAction) (c : Cursor) : Cursor :=
  if action.is_insert_newline then
    match action with
    | BufferAction.Insert start _ =>
      if start.row < c.row then { c with row := c.row + 1 } else c
    | _ => c
  else
    match action with
    | BufferAction.Delete (ActionRange.Line r) =>
      if r ≤ c.row then { c with row := c.row - 1 } else c
    | _ => c

/-- Modelled from the spec: the anchoring pass over the pane list.  After
an edit in the active pane, every *other* pane whose buffer id equals the
edited buffer's id has its cursor adjusted by `anchorCursor`; the active
pane and panes of other buffers are untouched.  `i` is the index of the
head of the remaining list. -/
def anchorPanes (active edited_id : Nat) (action : BufferAction) :
    Nat → List Pane → List Pane
  | _, [] => []
  | i, p :: ps =>
    (if i ≠ active ∧ p.buffer_id = edited_id then
      { p with cursor := anchorCursor action p.cursor }
    else p) :: anchorPanes active edited_id action (i + 1) ps

/-- Modelled from the spec: `PaneManager` anchoring entry point, taking the
edited buffer id and the returned action. -/
def PaneManager.apply_modification (pm : PaneManager) (edited_id : Nat)
    (action : BufferAction) : PaneManager :=
  { pm with panes := anchorPanes pm.active_pane edited_id action 0 pm.panes }

/-! ### Frame and rendering viewport (`src/src/editor/renderer/frame.rs`,
`src/src/editor/renderer/rect.rs`, `src/src/editor/renderer/viewport.rs`) -/

/-- Embeds `Cell`: one styled character of the terminal grid. -/
structure Cell where
  char : Char
  style : Style
deriving Repr, DecidableEq

/-- Embeds `Cell::default()`: a blank space with the default style. -/
def Cell.mkDefault : Cell :=
  { char := ' ', style := {} }

/-- Embeds `Rect`. -/
structure Rect where
  col : Nat
  row : Nat
  width : Nat
  height : Nat
deriving Repr, DecidableEq

/-- Embeds `Frame`: a `width × height` grid of cells in row-major order. -/
structure Frame where
  width : Nat
  height : Nat
  cells : List Cell
  cursor_position : Option (Nat × Nat)
deriving Repr, DecidableEq

/-- Embeds `Frame::new`. -/
def Frame.new (width height : Nat) : Frame :=
  { width := width, height := height,
    cells := List.replicate (width * height) Cell.mkDefault,
    cursor_position := none }

/-- Embeds `Frame::put_cell`: `self.cells[row * self.width + col] = cell`.  `none`
models the slice-index panic when the row-major index is out of bounds. -/
def Frame.put_cell (f : Frame) (col row : Nat) (cell : Cell) : Option Frame :=
  let index := row * f.width + col
  if index < f.cells.length then some { f with cells := f.cells.set index cell }
  else none

/-- The cell of a frame at absolute coordinates, through the row-major
index. -/
def Frame.cellAt (f : Frame) (col row : Nat) : Option Cell :=
  f.cells.get? (row * f.width + col)

/-- Embeds `Viewport::put_cell` (render layer): silently ignore coordinates
outside the viewport's rect, otherwise translate to absolute frame
coordinates and write. -/
def Viewport.put_cell (rect : Rect) (f : Frame) (col row : Nat) (cell : Cell) :
    Option Frame :=
  if col ≥ rect.width ∨ row ≥ rect.height then some f
  else f.put_cell (col + rect.col) (row + rect.row) cell

/-! ### BufferManager (`src/src/editor/buffer/manager.rs`)

The `Arc<RwLock<Buffer>>` handles are modelled as addresses into a heap of
buffers (`store`), so that "the same shared handle" is the same address;
cloning an entry copies the id and the address. -/

/-- Embeds `BufferEntry`: a stable id plus the shared buffer handle (an address
into the manager's heap). -/
structure BufferEntry where
  id : Nat
  addr : Nat
deriving Repr, DecidableEq

/-- Embeds `BufferManager` together with the heap of shared buffers its entries
point into. -/
structure BufferManager where
  next_id : Nat
  buffers : List BufferEntry
  store : List Buffer
deriving Repr, DecidableEq

/-- The buffer a manager entry's handle points at. -/
def BufferManager.deref (bm : BufferManager) (e : BufferEntry) : Option Buffer :=
  bm.store.get? e.addr

/-- The file path stored in the buffer behind an entry. -/
def BufferManager.entryPath (bm : BufferManager) (e : BufferEntry) :
    Option (List Char) :=
  match bm.deref e with
  | some b => b.filepath
  | none => none

/-- Embeds `BufferManager::get_buffer_by_path`: the first entry whose buffer's
`filepath` equals the path. -/
def BufferManager.get_buffer_by_path (bm : BufferManager) (path : List Char) :
    Option BufferEntry :=
  bm.buffers.find? (fun e => decide (bm.entryPath e = some path))

/-- Embeds `BufferManager::add`: allocate a fresh `Arc` (a fresh heap address),
wrap it in an entry with the next id, push a clone of the entry, and
return the entry. -/
def BufferManager.add (bm : BufferManager) (b : Buffer) :
    BufferManager × BufferEntry :=
  let entry : BufferEntry := { id := bm.next_id, addr := bm.store.length }
  ({ next_id := bm.next_id + 1,
     buffers := bm.buffers ++ [entry],
     store := bm.store ++ [b] }, entry)

/-- Embeds `Buffer::open_new_or_existing_file` against an abstract file system
(path to contents when the file exists). -/
def Buffer.open_new_or_existing_file (fs : List Char → Option (List Char))
    (path : List Char) : Buffer :=
  match fs path with
  | some contents => Buffer.open_file path contents
  | none => Buffer.open_new path

/-- Embeds `BufferManager::open_new_or_existing_file`: return the registered entry
when one already has this path, otherwise open the file and add it. -/
def BufferManager.open_new_or_existing_file (bm : BufferManager)
    (fs : List Char → Option (List Char)) (path : List Char) :
    BufferManager × BufferEntry :=
  match bm.get_buffer_by_path path with
  | some entry => (bm, entry)
  | none => bm.add (Buffer.open_new_or_existing_file fs path)

/-! ## Claim theorems -/

/-- Claim C1: the claimed behaviour of `delete_char` at the end of a row
fails on the code.  On the two-row buffer `["he", "llo"]` with the cursor
at the end of row 0, `delete_char` delegates to
`append_line_to_line(0, 1)`, which first *removes the cursor's own row*
(`self.rows.remove(from)`) and then looks up index 1 in the shortened
one-row list, finds nothing, and returns `BufferAction::None`.  The buffer
is left as `["llo"]` — the text `"he"` is lost — instead of the specified
`["hello"]` with `Delete(Line(1))`. -/
theorem c1_delete_char_join_loses_current_row :
    Buffer.delete_char
        { rows := [Row.new ['h', 'e'], Row.new ['l', 'l', 'o']],
          filepath := none, dirty := false }
        { col := 2, row := 0, last_col := 2 } =
      some ({ rows := [Row.new ['l', 'l', 'o']], filepath := none, dirty := false },
        BufferAction.None) ∧
    (Buffer.mk [Row.new ['l', 'l', 'o']] none false).num_lines = 1 := by
  exact ⟨rfl, rfl⟩

/-- Claim C3: the never-empty invariant fails on the code.  On the
single-row buffer `["ab"]` with the cursor at the end of the row,
`delete_char` delegates to `append_line_to_line(0, 1)`, which removes
row 0 and then fails to find row 1, leaving the buffer with *zero* rows. -/
theorem c3_delete_char_can_empty_buffer :
    Buffer.delete_char
        { rows := [Row.new ['a', 'b']], filepath := none, dirty := false }
        { col := 2, row := 0, last_col := 2 } =
      some ({ rows := [], filepath := none, dirty := false }, BufferAction.None) ∧
    (Buffer.mk [] none false).num_lines = 0 := by
  exact ⟨rfl, rfl⟩

/-- Claim C5: `Row::new` stores `text.len()`, the UTF-8 *byte* length, not
the number of Unicode scalar values.  On the one-character text `"é"`
(a two-byte scalar) the stored length is 2 while the text holds a single
char, so `len() = count(chars, text())` already fails at construction. -/
theorem c5_row_len_byte_count_mismatch :
    (Row.new ['é']).len = 2 ∧ (Row.new ['é']).text.length = 1 := by
  exact ⟨rfl, rfl⟩

/-- Claim C6: `force_apply` fails the claim on the `fg` field: the source
assigns `self.fg = other.fg.or(self.bg)`, reading the receiver's *bg*
where its original *fg* should be kept.  With `a = {fg: Red, bg: Blue}`
and `b` entirely unset, `a.force_apply(b)` leaves `fg = Blue`, not the
original `Red`; the other three fields behave as claimed. -/
theorem c6_force_apply_fg_reads_bg :
    Style.force_apply
        { fg := some Color.Red, bg := some Color.Blue,
          intensity := none, underline := none }
        {} =
      { fg := some Color.Blue, bg := some Color.Blue,
        intensity := none, underline := none } ∧
    (some Color.Blue ≠ some Color.Red) := by
  exact ⟨rfl, by decide⟩

/-- Claim C4, counterexample: on the buffer `["a"]` with the cursor at
column 0 of row 0, `delete_char` is *not* a no-op — the cursor's column
(0) differs from the row length (1), so the code deletes the character at
column 0 and returns `Delete(PointToPoint)`, marking the buffer dirty. -/
theorem c4_delete_at_origin_counterexample :
    Buffer.delete_char
        { rows := [Row.new ['a']], filepath := none, dirty := false }
        { col := 0, row := 0, last_col := 0 } ≠
      some ({ rows := [Row.new ['a']], filepath := none, dirty := false },
        BufferAction.None) := by
  decide

/-- Claim C7, counterexample: on an empty pane list `next_pane` computes
`self.active_pane.saturating_add(1) % self.panes.len()` with
`len() == 0` — an integer division by zero, which panics; it does not
return normally. -/
theorem c7_next_pane_empty_panics :
    PaneManager.next_pane { panes := [], active_pane := 0 } = none := by
  rfl

/-- Claim C9, counterexample: a viewport whose rect is not contained in
the frame can make `put_cell` panic.  With a 2×1 rect over a 1×1 frame,
`put_cell(1, 0, _)` passes the rect guard, translates to absolute column
1, and `Frame::put_cell` indexes `cells[1]` in a one-cell vector — an
out-of-bounds slice write. -/
theorem c9_put_cell_panic_counterexample :
    Viewport.put_cell { col := 0, row := 0, width := 2, height := 1 }
        (Frame.new 1 1) 1 0 Cell.mkDefault = none := by
  rfl

/-- Claim C4, amended: with the cursor at column 0 of row 0,
`delete_char` returns `None` and leaves the buffer (rows and dirty flag)
unchanged exactly when row 0 is absent or has stored length 0; when row 0
has nonzero length (and nonempty text, so the inner `String::remove(0)`
does not panic), it instead deletes the character at column 0 of row 0,
returns `Delete(PointToPoint{(0,0),(0,0)})` and sets the dirty flag. -/
theorem c4_delete_at_origin_amended (b : Buffer) (cursor : Cursor)
    (hc : cursor.col = 0) (hr : cursor.row = 0) :
    ((∀ r, b.rows.get? 0 = some r → r.len = 0) →
      Buffer.delete_char b cursor = some (b, BufferAction.None)) ∧
    (∀ r rest, b.rows = r :: rest → r.len ≠ 0 → r.text ≠ [] →
      Buffer.delete_char b cursor =
        some ({ b with
            rows := ({ text := r.text.tail, len := r.len - 1 } :: rest : List Row),
            dirty := true },
          BufferAction.Delete (ActionRange.PointToPoint
            { col := 0, row := 0 } { col := 0, row := 0 }))) := by
  constructor
  · intro h
    cases hg : b.rows.get? 0 with
    | none =>
      rw [List.get?_eq_getElem?] at hg
      simp [Buffer.delete_char, hc, hr, hg]
    | some r =>
      have hz := h r hg
      rw [List.get?_eq_getElem?] at hg
      simp [Buffer.delete_char, hc, hr, hg, hz]
  · intro r rest hrows hlen htext
    have hg : b.rows.get? 0 = some r := by rw [hrows]; rfl
    rw [List.get?_eq_getElem?] at hg
    obtain ⟨c0, cs, hct⟩ : ∃ c0 cs, r.text = c0 :: cs := by
      cases hx : r.text with
      | nil => exact absurd hx htext
      | cons c0 cs => exact ⟨c0, cs, rfl⟩
    have hdel : Row.delete_char r 0 = some ({ text := cs, len := r.len - 1 }, true) := by
      simp [Row.delete_char, hct, removeAtByte, Nat.le_zero, hlen]
    simp [Buffer.delete_char, hc, hr, hg, hlen, hdel, Ne.symm hlen, hrows, hct]

/-- Claim C4, witness for the amended theorem at the buffer `["a"]`. -/
theorem c4_delete_at_origin_witness :
    Buffer.delete_char
        { rows := [Row.new ['a']], filepath := none, dirty := false }
        { col := 0, row := 0, last_col := 0 } =
      some ({ rows := [{ text := [], len := 0 }], filepath := none, dirty := true },
        BufferAction.Delete (ActionRange.PointToPoint
          { col := 0, row := 0 } { col := 0, row := 0 })) := by
  have h := (c4_delete_at_origin_amended
      { rows := [Row.new ['a']], filepath := none, dirty := false }
      { col := 0, row := 0, last_col := 0 } rfl rfl).2
      (Row.new ['a']) [] rfl (by decide) (by decide)
  exact h

/-- Claim C7, amended: on a non-empty pane list of `n` panes, `next_pane`
returns normally and sets the active index to `(active + 1) mod n`, and
`prev_pane` returns normally and (for a valid active index) sets it to
`(active + n - 1) mod n`, wrapping at both ends; on an empty pane list
`prev_pane` returns normally and, for the reachable empty state
(`active == 0`), leaves the manager unchanged, while `next_pane` panics
with a division by zero. -/
theorem c7_pane_cycling_amended :
    (∀ pm : PaneManager, pm.panes ≠ [] →
      pm.next_pane =
        some { pm with active_pane := (pm.active_pane + 1) % pm.panes.length }) ∧
    (∀ pm : PaneManager, pm.panes ≠ [] → pm.active_pane < pm.panes.length →
      pm.prev_pane.panes = pm.panes ∧
      pm.prev_pane.active_pane =
        (pm.active_pane + pm.panes.length - 1) % pm.panes.length) ∧
    (∀ pm : PaneManager, pm.panes = [] → pm.active_pane = 0 →
      pm.prev_pane = pm) ∧
    (∀ pm : PaneManager, pm.panes = [] → pm.next_pane = none) := by
  refine ⟨?_, ?_, ?_, ?_⟩
  · intro pm hne
    have hz : pm.panes.length ≠ 0 := fun h => hne (List.length_eq_zero.mp h)
    simp [PaneManager.next_pane, hz]
  · intro pm hne hlt
    have hz : 0 < pm.panes.length := List.length_pos.mpr hne
    refine ⟨rfl, ?_⟩
    simp only [PaneManager.prev_pane]
    by_cases h0 : pm.active_pane = 0
    · rw [if_pos h0, h0, Nat.mod_eq_of_lt (by omega)]
      omega
    · rw [if_neg h0]
      obtain ⟨k, hk⟩ := Nat.exists_eq_succ_of_ne_zero h0
      rw [hk]
      have he : k + 1 + pm.panes.length - 1 = k + pm.panes.length := by omega
      rw [he, Nat.add_mod_right, Nat.mod_eq_of_lt (by omega)]
      omega
  · intro pm hempty h0
    cases pm with
    | mk panes active =>
      simp only at hempty h0
      simp [PaneManager.prev_pane, hempty, h0]
  · intro pm hempty
    simp [PaneManager.next_pane, hempty]

/-- Claim C7, witness for the amended theorem: a one-pane manager wraps
from index 0 back to index 0 under both operations, and `prev_pane` on the
reachable empty manager is the identity. -/
theorem c7_pane_cycling_witness :
    PaneManager.next_pane
        { panes := [{ buffer_id := 0, cursor := { col := 0, row := 0, last_col := 0 } }],
          active_pane := 0 } =
      some { panes := [{ buffer_id := 0, cursor := { col := 0, row := 0, last_col := 0 } }],
             active_pane := (0 + 1) % 1 } ∧
    PaneManager.prev_pane { panes := [], active_pane := 0 } =
      { panes := [], active_pane := 0 } := by
  constructor
  · exact c7_pane_cycling_amended.1
      { panes := [{ buffer_id := 0, cursor := { col := 0, row := 0, last_col := 0 } }],
        active_pane := 0 } (by simp)
  · exact c7_pane_cycling_amended.2.2.1 { panes := [], active_pane := 0 } rfl rfl

/-- The sticky-column invariant: the cursor's `last_col` is the remembered
column `C`, the cursor sits on an existing row, and its column is `C`
clamped to that row's length. -/
def stickyInv (b : Buffer) (C : Nat) (c : Cursor) : Prop :=
  c.last_col = C ∧ ∃ r, b.row c.row = some r ∧ c.col = min C r.len

/-- Lemma: `move_up` preserves the sticky-column invariant. -/
theorem stickyInv_move_up (b : Buffer) (C : Nat) (c : Cursor)
    (h : stickyInv b C c) : stickyInv b C (c.move_up b) := by
  obtain ⟨hl, r, hr, hc⟩ := h
  have hlt : c.row < b.rows.length := (List.get?_eq_some.mp hr).1
  have hlt' : c.row - 1 < b.rows.length := by omega
  obtain ⟨r', hr'⟩ : ∃ r', b.row (c.row - 1) = some r' :=
    ⟨_, List.get?_eq_get hlt'⟩
  simp only [Cursor.move_up, hr']
  split_ifs with h1 h2
  · refine ⟨hl, r', hr', ?_⟩
    dsimp only
    omega
  · refine ⟨hl, r', hr', ?_⟩
    dsimp only
    rw [hl]
  · refine ⟨hl, r', hr', ?_⟩
    dsimp only
    omega

/-- Lemma: `move_down` preserves the sticky-column invariant. -/
theorem stickyInv_move_down (b : Buffer) (C : Nat) (c : Cursor)
    (h : stickyInv b C c) : stickyInv b C (c.move_down b) := by
  obtain ⟨hl, r, hr, hc⟩ := h
  cases hnext : b.row (c.row + 1) with
  | none =>
    simp only [Cursor.move_down, hnext]
    exact ⟨hl, r, hr, hc⟩
  | some r' =>
    simp only [Cursor.move_down, hnext]
    split_ifs with h1 h2
    · refine ⟨hl, r', hnext, ?_⟩
      dsimp only
      omega
    · refine ⟨hl, r', hnext, ?_⟩
      dsimp only
      rw [hl]
    · refine ⟨hl, r', hnext, ?_⟩
      dsimp only
      omega

/-- Any sequence of vertical movements preserves the sticky-column
invariant. -/
theorem stickyInv_applyMoves (b : Buffer) (C : Nat) (ms : List VMove) :
    ∀ c, stickyInv b C c → stickyInv b C (applyMoves b ms c) := by
  induction ms with
  | nil => intro c h; exact h
  | cons m ms ih =>
    intro c h
    cases m with
    | up => exact ih _ (stickyInv_move_up b C c h)
    | down => exact ih _ (stickyInv_move_down b C c h)

/-- Claim C8: `move_up` and `move_down` never modify `last_col`; and a
cursor starting at `col = last_col = C` on a row `r0` of length at least
`C`, after any sequence of `move_up`/`move_down` steps, has its column
restored to exactly `C` whenever it is back on row `r0` (in particular
after moving down through arbitrarily shorter rows and back up). -/
theorem c8_sticky_column :
    (∀ (b : Buffer) (c : Cursor),
      (c.move_up b).last_col = c.last_col ∧ (c.move_down b).last_col = c.last_col) ∧
    (∀ (b : Buffer) (r0 C : Nat) (r : Row), b.row r0 = some r → C ≤ r.len →
      ∀ ms : List VMove,
        (applyMoves b ms { col := C, row := r0, last_col := C }).last_col = C ∧
        ((applyMoves b ms { col := C, row := r0, last_col := C }).row = r0 →
          (applyMoves b ms { col := C, row := r0, last_col := C }).col = C)) := by
  constructor
  · intro b c
    constructor
    · cases h : b.row (c.row - 1) with
      | none => simp [Cursor.move_up, h]
      | some r =>
        simp only [Cursor.move_up, h]
        split_ifs <;> rfl
    · cases h : b.row (c.row + 1) with
      | none => simp [Cursor.move_down, h]
      | some r =>
        simp only [Cursor.move_down, h]
        split_ifs <;> rfl
  · intro b r0 C r hr hC ms
    have hinv : stickyInv b C (applyMoves b ms { col := C, row := r0, last_col := C }) := by
      refine stickyInv_applyMoves b C ms _ ⟨rfl, r, hr, ?_⟩
      simp [Nat.min_eq_left hC]
    obtain ⟨hl, r', hr', hc⟩ := hinv
    refine ⟨hl, fun hrow => ?_⟩
    rw [hrow, hr] at hr'
    have heq : r = r' := by injection hr'
    rw [hc, ← heq, Nat.min_eq_left hC]

/-- Claim C8, witness: on the buffer `["abc", "x"]` with `C = 3`, moving
down onto the length-1 row and back up restores column 3. -/
theorem c8_sticky_column_witness :
    (applyMoves
        { rows := [Row.new ['a', 'b', 'c'], Row.new ['x']],
          filepath := none, dirty := false }
        [VMove.down, VMove.up]
        { col := 3, row := 0, last_col := 3 }).col = 3 := by
  exact (c8_sticky_column.2
      { rows := [Row.new ['a', 'b', 'c'], Row.new ['x']],
        filepath := none, dirty := false }
      0 3 (Row.new ['a', 'b', 'c']) rfl (by decide)
      [VMove.down, VMove.up]).2 (by decide)

/-- The per-pane transform performed by the anchoring pass at list
index `i`. -/
def anchorPaneFn (active edited_id : Nat) (action : BufferAction) (i : Nat)
    (p : Pane) : Pane :=
  if i ≠ active ∧ p.buffer_id = edited_id then
    { p with cursor := anchorCursor action p.cursor }
  else p

/-- Indexing into the anchoring pass: the pane at index `i` of the result
is `anchorPaneFn` of the pane at index `i` of the input. -/
theorem anchorPanes_get? (active edited_id : Nat) (action : BufferAction) :
    ∀ (ps : List Pane) (i0 i : Nat),
      (anchorPanes active edited_id action i0 ps).get? i =
        (ps.get? i).map (anchorPaneFn active edited_id action (i0 + i)) := by
  intro ps
  induction ps with
  | nil => intro i0 i; rfl
  | cons p ps ih =>
    intro i0 i
    cases i with
    | zero => rfl
    | succ j =>
      have := ih (i0 + 1) j
      simp only [anchorPanes, List.get?_cons_succ, this, Nat.add_assoc,
        Nat.add_comm 1 j]

/-- Lemma: `anchorCursor` never changes the column or the sticky column. -/
theorem anchorCursor_col (action : BufferAction) (c : Cursor) :
    (anchorCursor action c).col = c.col ∧
    (anchorCursor action c).last_col = c.last_col := by
  unfold anchorCursor
  split_ifs with h
  · cases action <;> simp at h ⊢
    split_ifs <;> simp
  · cases action with
    | Delete range =>
      cases range with
      | Line r => dsimp only; split_ifs <;> simp
      | PointToPoint a b => simp
    | Insert start text => simp
    | AppendLineToLine a b => simp
    | None => simp

/-- Claim C2 (anchoring pass modelled from the spec, which describes it as
part of `PaneManager`; no function under `src/` implements it): after an
edit in the active pane, every other pane with the edited buffer's id is
adjusted so that for an inserted newline at row `R` its cursor row
increases by 1 exactly when it was `> R`; for a full-line removal
`Delete(Line(R))` it becomes `row - 1` (truncated at 0) exactly when the
row was `>= R`; any other action kind leaves the pane unchanged.  The
column and sticky column are never touched. -/
theorem c2_anchoring_adjusts_other_panes (pm : PaneManager) (edited_id : Nat)
    (action : BufferAction) (i : Nat) (p : Pane)
    (hp : pm.panes.get? i = some p) (hne : i ≠ pm.active_pane)
    (hid : p.buffer_id = edited_id) :
    (pm.apply_modification edited_id action).panes.get? i =
      some { p with cursor := anchorCursor action p.cursor } ∧
    (anchorCursor action p.cursor).col = p.cursor.col ∧
    (anchorCursor action p.cursor).last_col = p.cursor.last_col ∧
    (∀ start text, action = BufferAction.Insert start text → text = ['\n'] →
      (anchorCursor action p.cursor).row =
        (if start.row < p.cursor.row then p.cursor.row + 1 else p.cursor.row)) ∧
    (∀ R, action = BufferAction.Delete (ActionRange.Line R) →
      (anchorCursor action p.cursor).row =
        (if R ≤ p.cursor.row then p.cursor.row - 1 else p.cursor.row)) ∧
    (action.is_insert_newline = false →
      (∀ R, action ≠ BufferAction.Delete (ActionRange.Line R)) →
      anchorCursor action p.cursor = p.cursor) := by
  refine ⟨?_, (anchorCursor_col action p.cursor).1,
    (anchorCursor_col action p.cursor).2, ?_, ?_, ?_⟩
  · rw [PaneManager.apply_modification]
    dsimp only
    rw [anchorPanes_get? pm.active_pane edited_id action pm.panes 0 i, hp]
    simp [anchorPaneFn, hne, hid]
  · intro start text haction htext
    subst haction
    subst htext
    simp only [anchorCursor, BufferAction.is_insert_newline, decide_True,
      if_true]
    split_ifs <;> simp_all
  · intro R haction
    subst haction
    simp only [anchorCursor, BufferAction.is_insert_newline, Bool.false_eq_true,
      if_false]
    split_ifs <;> simp_all
  · intro hnl hnotline
    cases action with
    | Insert start text =>
      have hx : ¬(text = ['\n']) := by
        intro hx
        subst hx
        simp [BufferAction.is_insert_newline] at hnl
      simp [anchorCursor, BufferAction.is_insert_newline, hx]
    | Delete range =>
      cases range with
      | Line R => exact absurd rfl (hnotline R)
      | PointToPoint a b => simp [anchorCursor, BufferAction.is_insert_newline]
    | AppendLineToLine a b => simp [anchorCursor, BufferAction.is_insert_newline]
    | None => simp [anchorCursor, BufferAction.is_insert_newline]

/-- Claim C2, witness: P1 active on pane index 0, P2 at index 1 on the
same buffer with cursor row 5; an inserted newline at row 2 moves P2's
cursor to row 6. -/
theorem c2_anchoring_witness :
    (PaneManager.apply_modification
        { panes := [{ buffer_id := 0, cursor := { col := 0, row := 0, last_col := 0 } },
                    { buffer_id := 0, cursor := { col := 0, row := 5, last_col := 0 } }],
          active_pane := 0 }
        0 (BufferAction.Insert { col := 0, row := 2 } ['\n'])).panes.get? 1 =
      some { buffer_id := 0, cursor := { col := 0, row := 6, last_col := 0 } } := by
  have h := (c2_anchoring_adjusts_other_panes
      { panes := [{ buffer_id := 0, cursor := { col := 0, row := 0, last_col := 0 } },
                  { buffer_id := 0, cursor := { col := 0, row := 5, last_col := 0 } }],
        active_pane := 0 }
      0 (BufferAction.Insert { col := 0, row := 2 } ['\n']) 1
      { buffer_id := 0, cursor := { col := 0, row := 5, last_col := 0 } }
      rfl (by decide) rfl).1
  rw [h]
  rfl

/-- Row-major indexing is injective on in-row columns: two cells with
columns below the frame width and equal row-major indexes are the same
cell. -/
theorem rowMajorInj {W x1 x2 y1 y2 : Nat} (h1 : x1 < W) (h2 : x2 < W)
    (h : y1 * W + x1 = y2 * W + x2) : x1 = x2 ∧ y1 = y2 := by
  have e1 : (y1 * W + x1) % W = x1 := by
    rw [Nat.add_comm, Nat.add_mul_mod_self_right, Nat.mod_eq_of_lt h1]
  have e2 : (y2 * W + x2) % W = x2 := by
    rw [Nat.add_comm, Nat.add_mul_mod_self_right, Nat.mod_eq_of_lt h2]
  have hx : x1 = x2 := by rw [← e1, ← e2, h]
  refine ⟨hx, ?_⟩
  have hW : 0 < W := by omega
  have hy : y1 * W = y2 * W := by omega
  exact Nat.eq_of_mul_eq_mul_right hW hy

/-- Claim C9, amended: for a viewport whose rect lies within the frame's
bounds (as every viewport produced by the compositor's layout does), the
clipping contract holds: a local coordinate outside the rect leaves the
frame untouched, an in-rect coordinate writes exactly the one cell at the
translated absolute position (which lies inside the rect) and no other,
and `put_cell` never panics.  Without the containment hypotheses the
contract fails (see the counterexample). -/
theorem c9_put_cell_amended (rect : Rect) (f : Frame) (col row : Nat)
    (cell : Cell)
    (hlen : f.cells.length = f.width * f.height)
    (hw : rect.col + rect.width ≤ f.width)
    (hh : rect.row + rect.height ≤ f.height) :
    ((col ≥ rect.width ∨ row ≥ rect.height) →
      Viewport.put_cell rect f col row cell = some f) ∧
    (col < rect.width → row < rect.height →
      ∃ f', Viewport.put_cell rect f col row cell = some f' ∧
        f'.width = f.width ∧ f'.height = f.height ∧
        f'.cursor_position = f.cursor_position ∧
        rect.col ≤ col + rect.col ∧ col + rect.col < rect.col + rect.width ∧
        rect.row ≤ row + rect.row ∧ row + rect.row < rect.row + rect.height ∧
        f'.cellAt (col + rect.col) (row + rect.row) = some cell ∧
        (∀ x y, x < f.width → ¬(x = col + rect.col ∧ y = row + rect.row) →
          f'.cellAt x y = f.cellAt x y) ∧
        (∀ x y, x < f.width →
          (x < rect.col ∨ rect.col + rect.width ≤ x ∨
            y < rect.row ∨ rect.row + rect.height ≤ y) →
          f'.cellAt x y = f.cellAt x y)) := by
  constructor
  · intro h
    have : col ≥ rect.width ∨ row ≥ rect.height := h
    simp [Viewport.put_cell, this]
  · intro hcol hrow
    have hx : col + rect.col < f.width := by omega
    have hy : row + rect.row < f.height := by omega
    have hW : 0 < f.width := by omega
    have hidx : (row + rect.row) * f.width + (col + rect.col) < f.cells.length := by
      rw [hlen]
      calc (row + rect.row) * f.width + (col + rect.col)
          < (row + rect.row) * f.width + f.width := by omega
        _ = (row + rect.row + 1) * f.width := by ring
        _ ≤ f.height * f.width := Nat.mul_le_mul_right _ (by omega)
        _ = f.width * f.height := Nat.mul_comm _ _
    have hguard : ¬(col ≥ rect.width ∨ row ≥ rect.height) := by omega
    refine ⟨{ f with
        cells := f.cells.set ((row + rect.row) * f.width + (col + rect.col)) cell },
      ?_, rfl, rfl, rfl, by omega, by omega, by omega, by omega, ?_, ?_, ?_⟩
    · simp only [Viewport.put_cell, Frame.put_cell]
      rw [if_neg hguard, if_pos hidx]
    · simp only [Frame.cellAt]
      rw [List.get?_set_eq]
      have : f.cells.get? ((row + rect.row) * f.width + (col + rect.col)) =
          some (f.cells.get ⟨_, hidx⟩) := List.get?_eq_get hidx
      rw [this]
      rfl
    · intro x y hxw hne
      simp only [Frame.cellAt]
      apply List.get?_set_ne
      intro hcontra
      exact hne ⟨(rowMajorInj hx hxw hcontra).1.symm,
        (rowMajorInj hx hxw hcontra).2.symm⟩
    · intro x y hxw houtside
      simp only [Frame.cellAt]
      apply List.get?_set_ne
      intro hcontra
      have := rowMajorInj hx hxw hcontra
      omega

/-- Claim C9, witness for the amended theorem over a contained 1×1
viewport on a 1×1 frame: an out-of-rect write is a no-op, and an in-rect
write returns normally. -/
theorem c9_put_cell_witness :
    Viewport.put_cell { col := 0, row := 0, width := 1, height := 1 }
        (Frame.new 1 1) 5 0 Cell.mkDefault = some (Frame.new 1 1) ∧
    (Viewport.put_cell { col := 0, row := 0, width := 1, height := 1 }
        (Frame.new 1 1) 0 0 { char := 'z', style := {} }).isSome = true := by
  constructor
  · exact (c9_put_cell_amended { col := 0, row := 0, width := 1, height := 1 }
      (Frame.new 1 1) 5 0 Cell.mkDefault rfl (by decide) (by decide)).1
      (Or.inl (by decide))
  · obtain ⟨f', hf, _⟩ := (c9_put_cell_amended
      { col := 0, row := 0, width := 1, height := 1 }
      (Frame.new 1 1) 0 0 { char := 'z', style := {} } rfl (by decide)
      (by decide)).2 (by decide) (by decide)
    rw [hf]
    rfl

/-- Claim C10: when a registered buffer's stored filepath equals the
requested path, `open_new_or_existing_file` returns the (first) matching
existing `BufferEntry` itself — same id, same shared handle — and leaves
the manager, its id counter and its heap completely unchanged; a fresh id
(the current `next_id`, which is then incremented) is allocated only when
no open buffer has that path, in which case the new entry is appended. -/
theorem c10_open_existing_reuses_entry (bm : BufferManager)
    (fs : List Char → Option (List Char)) (path : List Char) :
    ((∃ e ∈ bm.buffers, bm.entryPath e = some path) →
      ∃ e, bm.get_buffer_by_path path = some e ∧ e ∈ bm.buffers ∧
        bm.entryPath e = some path ∧
        bm.open_new_or_existing_file fs path = (bm, e)) ∧
    ((∀ e ∈ bm.buffers, bm.entryPath e ≠ some path) →
      (bm.open_new_or_existing_file fs path).2.id = bm.next_id ∧
      (bm.open_new_or_existing_file fs path).1.next_id = bm.next_id + 1 ∧
      (bm.open_new_or_existing_file fs path).1.buffers =
        bm.buffers ++ [(bm.open_new_or_existing_file fs path).2]) := by
  constructor
  · intro hex
    have hsome : (bm.buffers.find?
        (fun e => decide (bm.entryPath e = some path))).isSome = true := by
      rw [List.find?_isSome]
      obtain ⟨e, hmem, hpath⟩ := hex
      exact ⟨e, hmem, by simp [hpath]⟩
    obtain ⟨e, he⟩ := Option.isSome_iff_exists.mp hsome
    have hfind : bm.get_buffer_by_path path = some e := he
    refine ⟨e, hfind, List.mem_of_find?_eq_some he, ?_, ?_⟩
    · have := List.find?_some he
      simpa using this
    · simp only [BufferManager.open_new_or_existing_file, hfind]
  · intro hnone
    have hfind : bm.get_buffer_by_path path = none := by
      rw [BufferManager.get_buffer_by_path, List.find?_eq_none]
      intro e hmem
      simp [hnone e hmem]
    simp [BufferManager.open_new_or_existing_file, hfind, BufferManager.add]

/-- A concrete one-entry manager used by the C10 witness: buffer id 0 at
heap address 0, registered under path `"p"`, next id 1. -/
def bmSample : BufferManager :=
  { next_id := 1,
    buffers := [{ id := 0, addr := 0 }],
    store := [{ rows := [Row.mkDefault], filepath := some ['p'], dirty := false }] }

/-- Claim C10, witness: `bmSample` returns its registered entry for the
path `"p"` without consuming an id, and allocates the fresh id 1 for the
unregistered path `"q"`. -/
theorem c10_open_existing_witness :
    BufferManager.open_new_or_existing_file bmSample (fun _ => none) ['p'] =
      (bmSample, { id := 0, addr := 0 }) ∧
    (BufferManager.open_new_or_existing_file bmSample
      (fun _ => none) ['q']).2.id = 1 := by
  constructor
  · obtain ⟨e, hfind, hmem, hpath, heq⟩ :=
      (c10_open_existing_reuses_entry bmSample (fun _ => none) ['p']).1
        ⟨{ id := 0, addr := 0 }, by decide, by decide⟩
    have h2 : (some e : Option BufferEntry) = some { id := 0, addr := 0 } := by
      rw [← hfind]
      decide
    have he : e = { id := 0, addr := 0 } := Option.some.inj h2
    rw [he] at heq
    exact heq
  · exact ((c10_open_existing_reuses_entry bmSample
      (fun _ => none) ['q']).2 (by decide)).1

end Tedit
